import Mathlib

/-!
Verification development for the PyTissueOptics Monte Carlo photon
propagation engine.  The definitions below are a shallow embedding of the
Python source (`pytissueoptics/geometry.py`, `pytissueoptics/world.py`).
Real-valued quantities are modelled with exact rationals; the stochastic
draws (scattering distance, scattering angles, Fresnel reflect/transmit
decision, roulette uniforms) are modelled as explicit tapes of
pre-determined values, so the code becomes a deterministic state machine
over those tapes.
-/

namespace PTO

/-- 3-D point/vector over the rationals (embedding of `Vector` from the
vector module; only the operations the propagation engine needs). -/
structure Vec3 where
  x : ℚ
  y : ℚ
  z : ℚ
deriving DecidableEq

def vadd (a b : Vec3) : Vec3 := ⟨a.x + b.x, a.y + b.y, a.z + b.z⟩

def vsub (a b : Vec3) : Vec3 := ⟨a.x - b.x, a.y - b.y, a.z - b.z⟩

def smul (c : ℚ) (v : Vec3) : Vec3 := ⟨c * v.x, c * v.y, c * v.z⟩

def vneg (v : Vec3) : Vec3 := ⟨-v.x, -v.y, -v.z⟩

def dot (a b : Vec3) : ℚ := a.x * b.x + a.y * b.y + a.z * b.z

theorem vadd_smul_collinear (p : Vec3) (a b : ℚ) (v : Vec3) :
    vadd (vadd p (smul a v)) (smul b v) = vadd p (smul (a + b) v) := by
  cases p; cases v
  simp only [vadd, smul, Vec3.mk.injEq]
  refine ⟨by ring, by ring, by ring⟩

theorem vadd_smul_zero (p : Vec3) (v : Vec3) : vadd p (smul 0 v) = p := by
  cases p; cases v
  simp [vadd, smul]

/-- Tape of pre-drawn random values: the engine consumes scattering
distances (`Material.getScatteringDistance`), scattering angle pairs
(`Material.getScatteringAngles`), Fresnel reflect/transmit outcomes
(`FresnelIntersect.isReflected`) and roulette uniforms (`Photon.roulette`)
in program order. -/
structure Tape where
  distances : List ℚ
  angles : List (ℚ × ℚ)
  fresnel : List Bool
  uniforms : List ℚ
deriving DecidableEq

def drawAngles (t : Tape) : (ℚ × ℚ) × Tape :=
  (t.angles.headD (0, 0), { t with angles := t.angles.tail })

def drawFresnel (t : Tape) : Bool × Tape :=
  (t.fresnel.headD false, { t with fresnel := t.fresnel.tail })

def drawUniform (t : Tape) : ℚ × Tape :=
  (t.uniforms.headD 1, { t with uniforms := t.uniforms.tail })

/-- Modelled from the spec: the Photon data model of §3 (photon.py is not
part of the provided sources): position, unit direction, weight and the
alive flag. -/
structure PhotonState where
  r : Vec3
  ez : Vec3
  weight : ℚ
  alive : Bool
deriving DecidableEq

/-- Modelled from the spec: `Photon.moveBy` advances the position by
`d` along the current direction. -/
def moveBy (p : PhotonState) (d : ℚ) : PhotonState :=
  { p with r := vadd p.r (smul d p.ez) }

/-- Modelled from the spec: `Photon.decreaseWeightBy`. -/
def decreaseWeightBy (p : PhotonState) (delta : ℚ) : PhotonState :=
  { p with weight := p.weight - delta }

/-- Modelled from the spec: a photon is alive while its alive flag is set
and its weight is positive (§3: destruction is alive=false or weight=0). -/
def isAlive (p : PhotonState) : Bool :=
  p.alive && decide (0 < p.weight)

/-- Modelled from the spec (§4.3 step 2): roulette threshold 1e-4. -/
def rouletteThreshold : ℚ := 1 / 10000

/-- Modelled from the spec (§4.3 step 2): roulette survival probability 0.1. -/
def rouletteSurvival : ℚ := 1 / 10

/-- Modelled from the spec (§4.3 step 2): `Photon.roulette` — if the weight
is below the threshold, survive with probability `rouletteSurvival`
(rescaling the weight by 1/p) or die (weight 0, alive false); photons at or
above the threshold are untouched and consume no randomness. -/
def roulette (t : Tape) (p : PhotonState) : PhotonState × Tape :=
  if p.weight < rouletteThreshold then
    let u := (drawUniform t).1
    let t1 := (drawUniform t).2
    if u < rouletteSurvival then
      ({ p with weight := p.weight * (1 / rouletteSurvival) }, t1)
    else
      ({ p with weight := 0, alive := false }, t1)
  else (p, t)

/-- Interface hit as consumed by `Geometry.propagate`: distance to the
surface and an identifier of the surface. -/
structure Intersect where
  distance : ℚ
  surfaceId : Nat
deriving DecidableEq

/-- The geometry capabilities `Geometry.propagate` dispatches on:
`contains`, `nextExitInterface`, the material albedo, and the direction
updates for scattering (`Photon.scatterBy`), reflection (`Photon.reflect`)
and refraction (`Photon.refract`).  The direction updates are kept
abstract parameters: their formulas live in the vector/photon modules. -/
structure GeometryOps where
  contains : Vec3 → Bool
  nextExit : Vec3 → Vec3 → ℚ → Option Intersect
  scatter : Vec3 → ℚ → ℚ → Vec3
  reflectDir : Vec3 → Intersect → Vec3
  refractDir : Vec3 → Intersect → Vec3
  albedo : ℚ

/-- Score events emitted to the stats collaborator, carrying the photon's
current position and weight (or absorbed delta). -/
inductive ScoreEvent where
  | starting (r : Vec3) (w : ℚ)
  | inVolume (r : Vec3) (delta : ℚ)
  | exiting (r : Vec3) (w : ℚ)
  | finalW (r : Vec3) (w : ℚ)
deriving DecidableEq

/-- Loop state of `Geometry.propagate`: the photon, the remaining
free-flight distance `d`, the random tape and the score log. -/
structure LoopSt where
  p : PhotonState
  d : ℚ
  tape : Tape
  events : List ScoreEvent
deriving DecidableEq

/-- Lines 23-24 of geometry.py: at the top of the loop body a new
scattering distance is drawn only when `d <= 0`. -/
def headDraw (t : Tape) (d : ℚ) : ℚ × Tape :=
  if d ≤ 0 then (t.distances.headD 0, { t with distances := t.distances.tail })
  else (d, t)

/-- One iteration of the `while` body of `Geometry.propagate`
(geometry.py lines 22-62), for a state in which the loop guard holds.
Returns the new loop state and whether the body exited via `break`
(the transmit branch). -/
def propagateIter (G : GeometryOps) (s : LoopSt) : LoopSt × Bool :=
  let d1 := (headDraw s.tape s.d).1
  let t1 := (headDraw s.tape s.d).2
  match G.nextExit s.p.r s.p.ez d1 with
  | none =>
    let p1 := moveBy s.p d1
    let delta := p1.weight * G.albedo
    let p2 := decreaseWeightBy p1 delta
    let th := (drawAngles t1).1.1
    let ph := (drawAngles t1).1.2
    let t2 := (drawAngles t1).2
    let p3 := { p2 with ez := G.scatter p2.ez th ph }
    let p4 := (roulette t2 p3).1
    let t3 := (roulette t2 p3).2
    ({ p := p4, d := 0, tape := t3,
       events := s.events ++ [ScoreEvent.inVolume p2.r delta] }, false)
  | some it =>
    let p1 := moveBy s.p it.distance
    let refl := (drawFresnel t1).1
    let t2 := (drawFresnel t1).2
    if refl then
      let p2 := { p1 with ez := G.reflectDir p1.ez it }
      let p3 := moveBy p2 (1 / 1000)
      let p4 := (roulette t2 p3).1
      let t3 := (roulette t2 p3).2
      ({ p := p4, d := d1 - it.distance, tape := t3, events := s.events }, false)
    else
      let p2 := { p1 with ez := G.refractDir p1.ez it }
      let p3 := moveBy p2 (1 / 1000)
      ({ p := p3, d := d1, tape := t2,
         events := s.events ++ [ScoreEvent.exiting p2.r p2.weight] }, true)

/-- The `while photon.isAlive and self.contains(photon.r)` loop of
`Geometry.propagate`, with explicit fuel. -/
def propagateLoop (G : GeometryOps) : Nat → LoopSt → LoopSt
  | 0, s => s
  | Nat.succ n, s =>
    if isAlive s.p && G.contains s.p.r then
      let s1 := (propagateIter G s).1
      if (propagateIter G s).2 then s1 else propagateLoop G n s1
    else s

/-- Initial loop state of `Geometry.propagate`: transform to local
coordinates, score the start, and set `d = 0` (geometry.py lines 18-20). -/
def propagateInit (origin : Vec3) (tape : Tape) (p : PhotonState) : LoopSt :=
  { p := { p with r := vsub p.r origin }
    d := 0
    tape := tape
    events := [ScoreEvent.starting (vsub p.r origin) p.weight] }

/-- `Geometry.propagate` (geometry.py lines 17-68): local-coordinate
transform, the loop, final score, transform back. -/
def propagate (G : GeometryOps) (origin : Vec3) (fuel : Nat) (tape : Tape)
    (p : PhotonState) : LoopSt :=
  let s := propagateLoop G fuel (propagateInit origin tape p)
  { s with
    p := { s.p with r := vadd s.p.r origin }
    events := s.events ++ [ScoreEvent.finalW s.p.r s.p.weight] }

/-- Draw one scattering distance per photon of the group, in list order
(`Material.getManyScatteringDistances`). -/
def takeDistances (t : Tape) (n : Nat) : List ℚ × Tape :=
  (t.distances.take n, { t with distances := t.distances.drop n })

/-- `Geometry._getPossibleIntersections` (geometry.py lines 281-316):
split the photons into those propagating unimpeded (keeping their drawn
distance) and those hitting an interface (keeping the interface), by
calling `nextExitInterface` per photon in list order. -/
def splitByIntersect (G : GeometryOps) :
    List (PhotonState × ℚ) → List (PhotonState × ℚ) × List (PhotonState × Intersect)
  | [] => ([], [])
  | (p, d) :: rest =>
    let u := (splitByIntersect G rest).1
    let i := (splitByIntersect G rest).2
    match G.nextExit p.r p.ez d with
    | none => ((p, d) :: u, i)
    | some it => (u, (p, it) :: i)

/-- Step 1 of the `propagateMany` loop body (geometry.py lines 96-101):
unimpeded photons move by their full distance, lose `weight * albedo`,
and scatter with freshly drawn angles. -/
def volumeMany (G : GeometryOps) (t : Tape) :
    List (PhotonState × ℚ) → List PhotonState × Tape
  | [] => ([], t)
  | (p, d) :: rest =>
    let p1 := moveBy p d
    let p2 := { p1 with weight := p1.weight - p1.weight * G.albedo }
    let th := (drawAngles t).1.1
    let ph := (drawAngles t).1.2
    let t1 := (drawAngles t).2
    let ps := (volumeMany G t1 rest).1
    let t2 := (volumeMany G t1 rest).2
    ({ p2 with ez := G.scatter p2.ez th ph } :: ps, t2)

/-- Step 2 of the `propagateMany` loop body (geometry.py lines 103-118):
impeded photons move to the interface; the Fresnel draw splits them into
reflected photons (direction mirrored, not moved further — the
`moveBy(remainingDistances)` is commented out with a FIXME in the source)
and transmitted photons (refracted, nudged by 1e-6).  Returns
(reflected, transmitted, tape). -/
def impededMany (G : GeometryOps) (t : Tape) :
    List (PhotonState × Intersect) → List PhotonState × List PhotonState × Tape
  | [] => ([], [], t)
  | (p, it) :: rest =>
    let p1 := moveBy p it.distance
    let refl := (drawFresnel t).1
    let t1 := (drawFresnel t).2
    let rs := (impededMany G t1 rest).1
    let ts := (impededMany G t1 rest).2.1
    let t2 := (impededMany G t1 rest).2.2
    if refl then
      ({ p1 with ez := G.reflectDir p1.ez it } :: rs, ts, t2)
    else
      let p2 := { p1 with ez := G.refractDir p1.ez it }
      (rs, moveBy p2 (1 / 1000000) :: ts, t2)

/-- `Photons.roulette` over the group (geometry.py line 125), photon by
photon in list order.  Modelled from the spec: photons killed by the
roulette are no longer propagated ("we continue until all photons have
died ... or transmitted"), so they are split off into a dead list.
Returns (survivors, dead, tape). -/
def rouletteMany (t : Tape) :
    List PhotonState → List PhotonState × List PhotonState × Tape
  | [] => ([], [], t)
  | p :: rest =>
    let p1 := (roulette t p).1
    let t1 := (roulette t p).2
    let s := (rouletteMany t1 rest).1
    let d := (rouletteMany t1 rest).2.1
    let t2 := (rouletteMany t1 rest).2.2
    if isAlive p1 then (p1 :: s, d, t2) else (s, p1 :: d, t2)

/-- Result of `Geometry.propagateMany`: the photons that transmitted out
of the geometry, the photons that died inside (kept for observation;
the Python objects survive by mutation), and the remaining tape. -/
structure ManyOut where
  exited : List PhotonState
  dead : List PhotonState
  tape : Tape
deriving DecidableEq

/-- The `while not photonsInside.isEmpty` loop of `Geometry.propagateMany`
(geometry.py lines 85-126), with explicit fuel. -/
def manyLoop (G : GeometryOps) :
    Nat → List PhotonState → Tape → List PhotonState → List PhotonState → ManyOut
  | 0, _, t, exited, dead => ⟨exited, dead, t⟩
  | Nat.succ n, inside, t, exited, dead =>
    if inside.isEmpty then ⟨exited, dead, t⟩
    else
      let ds := (takeDistances t inside.length).1
      let t1 := (takeDistances t inside.length).2
      let unimp := (splitByIntersect G (inside.zip ds)).1
      let imp := (splitByIntersect G (inside.zip ds)).2
      let moved := (volumeMany G t1 unimp).1
      let t2 := (volumeMany G t1 unimp).2
      let refl := (impededMany G t2 imp).1
      let trans := (impededMany G t2 imp).2.1
      let t3 := (impededMany G t2 imp).2.2
      let surv := (rouletteMany t3 (moved ++ refl)).1
      let newDead := (rouletteMany t3 (moved ++ refl)).2.1
      let t4 := (rouletteMany t3 (moved ++ refl)).2.2
      manyLoop G n surv t4 (exited ++ trans) (dead ++ newDead)

/-- `Geometry.propagateMany` (geometry.py lines 70-132): transform the
group to local coordinates, run the loop, transform only the exited
photons back to world coordinates (dead photons are left in the local
frame, as in the source). -/
def propagateMany (G : GeometryOps) (origin : Vec3) (fuel : Nat) (tape : Tape)
    (photons : List PhotonState) : ManyOut :=
  let localPhotons := photons.map (fun p => { p with r := vsub p.r origin })
  let out := manyLoop G fuel localPhotons tape [] []
  { out with exited := out.exited.map (fun p => { p with r := vadd p.r origin }) }

/-- Surface as stored on a world geometry: the refractive indices assigned
at setup (world.py lines 167-169). -/
structure MSurface where
  indexInside : ℚ
  indexOutside : ℚ
deriving DecidableEq

/-- Geometry as seen by `World._startCalculation`: a material refractive
index and the list of boundary surfaces. -/
structure MGeometry where
  materialIndex : ℚ
  surfaces : List MSurface
deriving DecidableEq

/-- World as seen by `World._startCalculation`: registered geometries and
sources (a source is its photon count). -/
structure MWorld where
  geometries : List MGeometry
  sources : List Nat
deriving DecidableEq

/-- The two fatal configuration errors raised by `World._startCalculation`
(world.py lines 163-164 and 175-176). -/
inductive ConfigError where
  | noGeometries
  | noSources
deriving DecidableEq

/-- World.py lines 167-169: every surface of the geometry gets
`indexInside = geometry.material.index` and `indexOutside = 1.0`,
overwriting whatever was there. -/
def assignSurfaceIndices (g : MGeometry) : MGeometry :=
  { g with surfaces := g.surfaces.map (fun _ => ⟨g.materialIndex, 1⟩) }

/-- `World._startCalculation` (world.py lines 155-178): raise if no
geometry is registered; assign the surface indices of every geometry and
validate it, catching any validation exception (the Boolean oracle
`validate` records whether `validateGeometrySurfaceNormals` succeeds);
raise if no source is registered.  On success return the updated world
together with the per-geometry validation outcomes (False entries are the
logged "appears invalid" messages). -/
def startCalculation (validate : MGeometry → Bool) (w : MWorld) :
    Except ConfigError (MWorld × List Bool) :=
  if w.geometries.isEmpty then Except.error ConfigError.noGeometries
  else
    let gs := w.geometries.map assignSurfaceIndices
    let logs := gs.map validate
    if w.sources.isEmpty then Except.error ConfigError.noSources
    else Except.ok (⟨gs, w.sources⟩, logs)

/-- `World.compute` (world.py lines 66-76): `_startCalculation` first;
only in the success case is the photon loop entered — the returned count
is the number of photons propagated. -/
def compute (validate : MGeometry → Bool) (w : MWorld) :
    Except ConfigError (MWorld × Nat) :=
  match startCalculation validate w with
  | Except.error e => Except.error e
  | Except.ok (w1, _) => Except.ok (w1, w.sources.foldl (· + ·) 0)

/-- Modelled from the spec (§3, §4.2; the surface module is not part of
the provided sources): an `XYPlane` boundary primitive at height `atZ`
with outward normal `(0, 0, nSign)` (`nSign = -1` models the `-XYPlane`
orientation of the source) and the refractive indices assigned at setup. -/
structure MPlane where
  atZ : ℚ
  nSign : ℚ
  indexInside : ℚ
  indexOutside : ℚ
deriving DecidableEq

def planeNormal (s : MPlane) : Vec3 := ⟨0, 0, s.nSign⟩

/-- Modelled from the spec (§4.2): a point is on the plane when its signed
distance to it vanishes (exact arithmetic). -/
def planeContainsPt (s : MPlane) (p : Vec3) : Bool :=
  decide (p.z = s.atZ)

/-- Modelled from the spec (§4.2): closest positive-distance ray/plane
intersection; none when the ray is parallel, the hit is behind, or beyond
`maxDist`.  Returns the (isIntersecting, distance) pair of
`surface.intersection`. -/
def planeIntersection (s : MPlane) (pos dir : Vec3) (maxDist : ℚ) : Bool × ℚ :=
  if dir.z = 0 then (false, 0)
  else if 0 < (s.atZ - pos.z) / dir.z ∧ (s.atZ - pos.z) / dir.z ≤ maxDist then
    (true, (s.atZ - pos.z) / dir.z)
  else (false, (s.atZ - pos.z) / dir.z)

/-- Fresnel intersection record: surface, distance and the refractive
index bookkeeping (`indexIn` on the photon's side, `indexOut` across). -/
structure FIntersect where
  surf : MPlane
  distance : ℚ
  indexIn : ℚ
  indexOut : ℚ
deriving DecidableEq

/-- Modelled from the spec (§3 and the asserts of
`validateGeometrySurfaceNormals`): building a `FresnelIntersect` orients
the indices by the direction against the outward normal — travelling along
the normal is exiting (indexIn = indexInside), against it entering. -/
def mkFresnel (dir : Vec3) (s : MPlane) (d : ℚ) : FIntersect :=
  if 0 < dot dir (planeNormal s) then
    ⟨s, d, s.indexInside, s.indexOutside⟩
  else
    ⟨s, d, s.indexOutside, s.indexInside⟩

/-- One surface of the `Geometry.nextEntranceInterface` scan
(geometry.py lines 160-168): skip surfaces the direction does not face
against (`direction.dot(normal) >= 0`), otherwise keep the intersection
when it is strictly below the running minimum. -/
def entranceStep (pos dir : Vec3) (dist : ℚ) (acc : ℚ × Option MPlane)
    (s : MPlane) : ℚ × Option MPlane :=
  if 0 ≤ dot dir (planeNormal s) then acc
  else if (planeIntersection s pos dir dist).1
      ∧ (planeIntersection s pos dir dist).2 < acc.1 then
    ((planeIntersection s pos dir dist).2, some s)
  else acc

/-- `Geometry.nextEntranceInterface` (geometry.py lines 146-172): scan all
surfaces with `entranceStep`, the running minimum initialised to
`distance`. -/
def nextEntrance (surfaces : List MPlane) (pos dir : Vec3) (dist : ℚ) :
    Option FIntersect :=
  match (surfaces.foldl (entranceStep pos dir dist) (dist, none)).2 with
  | none => none
  | some s =>
    some (mkFresnel dir s (surfaces.foldl (entranceStep pos dir dist) (dist, none)).1)

theorem entranceStep_skip (pos dir : Vec3) (dist : ℚ) (acc : ℚ × Option MPlane)
    (s : MPlane) (h : 0 ≤ dot dir (planeNormal s)) :
    entranceStep pos dir dist acc s = acc := by
  unfold entranceStep
  rw [if_pos h]

theorem entranceStep_miss (pos dir : Vec3) (dist : ℚ) (acc : ℚ × Option MPlane)
    (s : MPlane) (h : ¬ 0 ≤ dot dir (planeNormal s))
    (h2 : ¬((planeIntersection s pos dir dist).1 = true
      ∧ (planeIntersection s pos dir dist).2 < acc.1)) :
    entranceStep pos dir dist acc s = acc := by
  unfold entranceStep
  rw [if_neg h, if_neg h2]

theorem entranceStep_hit (pos dir : Vec3) (dist : ℚ) (acc : ℚ × Option MPlane)
    (s : MPlane) (h : ¬ 0 ≤ dot dir (planeNormal s))
    (h2 : (planeIntersection s pos dir dist).1 = true
      ∧ (planeIntersection s pos dir dist).2 < acc.1) :
    entranceStep pos dir dist acc s
      = ((planeIntersection s pos dir dist).2, some s) := by
  unfold entranceStep
  rw [if_neg h, if_pos h2]

theorem planeIntersection_hit (s : MPlane) (pos dir : Vec3) (dist : ℚ)
    (hz : dir.z ≠ 0)
    (h : 0 < (s.atZ - pos.z) / dir.z ∧ (s.atZ - pos.z) / dir.z ≤ dist) :
    planeIntersection s pos dir dist = (true, (s.atZ - pos.z) / dir.z) := by
  unfold planeIntersection
  rw [if_neg hz, if_pos h]

theorem planeIntersection_miss (s : MPlane) (pos dir : Vec3) (dist : ℚ)
    (hz : dir.z ≠ 0)
    (h : ¬(0 < (s.atZ - pos.z) / dir.z ∧ (s.atZ - pos.z) / dir.z ≤ dist)) :
    planeIntersection s pos dir dist = (false, (s.atZ - pos.z) / dir.z) := by
  unfold planeIntersection
  rw [if_neg hz, if_neg h]

/-- `Layer.contains` (geometry.py lines 399-405). -/
def layerContains (th : ℚ) (p : Vec3) : Bool :=
  if p.z < 0 then false
  else if th < p.z then false
  else true

/-- The `-XYPlane(atZ=0)` front surface of a `Layer`, carrying assigned
indices. -/
def layerFront (ni no : ℚ) : MPlane := ⟨0, -1, ni, no⟩

/-- The `XYPlane(atZ=thickness)` back surface of a `Layer`. -/
def layerBack (th ni no : ℚ) : MPlane := ⟨th, 1, ni, no⟩

/-- The interior center `(0, 0, thickness/2)` of a `Layer`. -/
def layerCenter (th : ℚ) : Vec3 := ⟨0, 0, th * (1 / 2)⟩

/-- `Layer.nextExitInterface` (geometry.py lines 407-431): closed-form
plane intersection; `None` when the segment endpoint is still contained. -/
def layerNextExit (th : ℚ) (front back : MPlane) (pos dir : Vec3) (dist : ℚ) :
    Option FIntersect :=
  if layerContains th (vadd pos (smul dist dir)) then none
  else if 0 < dir.z then
    let d := (th - pos.z) / dir.z
    if d ≤ dist then some (mkFresnel dir back d) else none
  else if dir.z < 0 then
    let d := -pos.z / dir.z
    if d ≤ dist then some (mkFresnel dir front d) else none
  else none

/-- State of the damped-bisection loop of the generic
`Geometry.nextExitInterface` (geometry.py lines 260-271): the marching
point, the accumulated signed parameter `t` along the direction, the
current step `delta` and the last containment classification. -/
structure BisectState where
  pos : Vec3
  t : ℚ
  delta : ℚ
  wasInside : Bool
deriving DecidableEq

/-- One iteration of the bisection `while` body: advance by
`delta * direction`; if the containment classification changed, halve and
flip the step (`delta = -delta * 0.5`). -/
def bisectStep (c : Vec3 → Bool) (dir : Vec3) (s : BisectState) : BisectState :=
  { pos := vadd s.pos (smul s.delta dir)
    t := s.t + s.delta
    delta := if c (vadd s.pos (smul s.delta dir)) = s.wasInside then s.delta
             else -s.delta * (1 / 2)
    wasInside := c (vadd s.pos (smul s.delta dir)) }

/-- The 1e-5 tolerance of the bisection loop (`abs(delta) > 0.00001`). -/
def bisectTol : ℚ := 1 / 100000

/-- The `while abs(delta) > 0.00001` loop, with explicit fuel: `some`
final state once the step has fallen to the tolerance, `none` when the
fuel runs out first. -/
def bisectRun (c : Vec3 → Bool) (dir : Vec3) : Nat → BisectState → Option BisectState
  | 0, s => if |s.delta| ≤ bisectTol then some s else none
  | Nat.succ n, s =>
    if |s.delta| ≤ bisectTol then some s
    else bisectRun c dir n (bisectStep c dir s)

/-- The surface scan after the bisection (geometry.py lines 273-279):
first surface facing along the direction that contains the bracketed
point wins; the distance is the length of the displacement from the start
(equal to `|t|` for a unit direction). -/
def scanSurfaces (dir : Vec3) (endPos : Vec3) (tEnd : ℚ) :
    List MPlane → Option FIntersect
  | [] => none
  | s :: rest =>
    if 0 < dot (planeNormal s) dir then
      if planeContainsPt s endPos then some (mkFresnel dir s |tEnd|)
      else scanSurfaces dir endPos tEnd rest
    else scanSurfaces dir endPos tEnd rest

/-- The generic `Geometry.nextExitInterface` (geometry.py lines 242-279):
`None` when the segment endpoint is still contained, otherwise damped
bisection from the start position followed by the surface scan. -/
def nextExitInterfaceG (fuel : Nat) (c : Vec3 → Bool) (surfaces : List MPlane)
    (pos dir : Vec3) (dist : ℚ) : Option FIntersect :=
  if c (vadd pos (smul dist dir)) then none
  else
    match bisectRun c dir fuel ⟨pos, 0, dist * (1 / 2), true⟩ with
    | none => none
    | some s => scanSurfaces dir s.pos s.t surfaces

/-- Claim C10: both the generic `Geometry.nextExitInterface` and `Layer`'s
closed-form override return `None` whenever the segment endpoint
`position + distance * direction` is contained in the geometry, regardless
of what happens in between. -/
theorem next_exit_none_when_endpoint_contained (fuel : Nat) (c : Vec3 → Bool)
    (surfaces : List MPlane) (pos dir : Vec3) (dist : ℚ)
    (th : ℚ) (front back : MPlane) (pos2 dir2 : Vec3) (dist2 : ℚ)
    (h1 : c (vadd pos (smul dist dir)) = true)
    (h2 : layerContains th (vadd pos2 (smul dist2 dir2)) = true) :
    nextExitInterfaceG fuel c surfaces pos dir dist = none
    ∧ layerNextExit th front back pos2 dir2 dist2 = none := by
  constructor
  · simp [nextExitInterfaceG, h1]
  · simp [layerNextExit, h2]

/-- Witness for C10 at a concrete contained endpoint. -/
theorem next_exit_none_when_endpoint_contained_w :
    nextExitInterfaceG 3 (fun _ => true) [] ⟨0, 0, 0⟩ ⟨0, 0, 1⟩ 1 = none
    ∧ layerNextExit 1 (layerFront (7/5) 1) (layerBack 1 (7/5) 1)
        ⟨0, 0, 1/2⟩ ⟨0, 0, 1⟩ (1/4) = none :=
  next_exit_none_when_endpoint_contained 3 (fun _ => true) [] ⟨0, 0, 0⟩ ⟨0, 0, 1⟩ 1
    1 (layerFront (7/5) 1) (layerBack 1 (7/5) 1) ⟨0, 0, 1/2⟩ ⟨0, 0, 1⟩ (1/4)
    rfl (by norm_num [layerContains, vadd, smul])

/-- Claim C7: with no registered geometry or no registered source,
`World._startCalculation` raises before any photon is propagated, so
`World.compute` never enters its photon loop. -/
theorem compute_fails_fast_without_geometry_or_source
    (validate : MGeometry → Bool) (w : MWorld)
    (h : w.geometries = [] ∨ w.sources = []) :
    (∃ e, compute validate w = Except.error e)
    ∧ (w.geometries = [] →
        compute validate w = Except.error ConfigError.noGeometries)
    ∧ (w.geometries ≠ [] → w.sources = [] →
        compute validate w = Except.error ConfigError.noSources) := by
  obtain ⟨gs, ss⟩ := w
  have hG : gs = [] → compute validate ⟨gs, ss⟩ = Except.error ConfigError.noGeometries := by
    intro hg; subst hg; rfl
  have hS : gs ≠ [] → ss = [] →
      compute validate ⟨gs, ss⟩ = Except.error ConfigError.noSources := by
    intro hg hs; subst hs
    cases gs with
    | nil => exact absurd rfl hg
    | cons g rest => rfl
  refine ⟨?_, hG, hS⟩
  rcases h with h | h
  · exact ⟨ConfigError.noGeometries, hG h⟩
  · by_cases hg : gs = []
    · exact ⟨ConfigError.noGeometries, hG hg⟩
    · exact ⟨ConfigError.noSources, hS hg h⟩

/-- Witness for C7: an empty world is rejected before any propagation. -/
theorem compute_fails_fast_without_geometry_or_source_w :
    ∃ e, compute (fun _ => true) ⟨[], []⟩ = Except.error e :=
  (compute_fails_fast_without_geometry_or_source (fun _ => true) ⟨[], []⟩
    (Or.inl rfl)).1

/-- Claim C8: a geometry-validation failure is non-fatal — whatever the
validation outcomes are, `World._startCalculation` succeeds on a world
with at least one geometry and one source, the run covers all geometries
and sources, and the resulting world does not depend on the validation
outcomes (only the log does). -/
theorem validation_failure_nonfatal
    (validate : MGeometry → Bool) (w : MWorld)
    (hg : w.geometries ≠ []) (hs : w.sources ≠ []) :
    startCalculation validate w =
      Except.ok (⟨w.geometries.map assignSurfaceIndices, w.sources⟩,
        (w.geometries.map assignSurfaceIndices).map validate) := by
  obtain ⟨gs, ss⟩ := w
  cases gs with
  | nil => exact absurd rfl hg
  | cons g rest =>
    cases ss with
    | nil => exact absurd rfl hs
    | cons s rest2 => rfl

/-- Witness for C8: a world whose every geometry fails validation still
starts its run. -/
theorem validation_failure_nonfatal_w :
    startCalculation (fun _ => false) ⟨[⟨7/5, [⟨99, 42⟩]⟩], [10]⟩ =
      Except.ok (⟨[⟨7/5, [⟨7/5, 1⟩]⟩], [10]⟩, [false]) := by
  have h := validation_failure_nonfatal (fun _ => false)
    ⟨[⟨7/5, [⟨99, 42⟩]⟩], [10]⟩ (by simp) (by simp)
  simpa [assignSurfaceIndices] using h

/-- Claim C9: after a successful `World._startCalculation`, every surface
of every geometry carries `indexInside = ` its geometry's material index
and `indexOutside = 1.0`, whatever values were assigned before. -/
theorem surfaces_get_material_index_and_outside_one
    (validate : MGeometry → Bool) (w w1 : MWorld) (logs : List Bool)
    (h : startCalculation validate w = Except.ok (w1, logs)) :
    ∀ g ∈ w1.geometries, ∀ s ∈ g.surfaces,
      s.indexInside = g.materialIndex ∧ s.indexOutside = 1 := by
  have hw1 : w1.geometries = w.geometries.map assignSurfaceIndices := by
    unfold startCalculation at h
    by_cases h1 : w.geometries.isEmpty
    · simp [h1] at h
    · by_cases h2 : w.sources.isEmpty
      · simp [h1, h2] at h
      · simp [h1, h2] at h
        rw [← h.1]
  rw [hw1]
  intro g hgmem s hsmem
  rw [List.mem_map] at hgmem
  obtain ⟨g0, _, rfl⟩ := hgmem
  simp only [assignSurfaceIndices, List.mem_map] at hsmem
  obtain ⟨s0, _, rfl⟩ := hsmem
  exact ⟨rfl, rfl⟩

/-- Witness for C9: a world with stale surface indices gets them
overwritten. -/
theorem surfaces_get_material_index_and_outside_one_w :
    (MSurface.mk (7/5) 1).indexInside = (MGeometry.mk (7/5) [⟨7/5, 1⟩]).materialIndex
    ∧ (MSurface.mk (7/5) 1).indexOutside = 1 :=
  surfaces_get_material_index_and_outside_one (fun _ => true)
    ⟨[⟨7/5, [⟨99, 42⟩]⟩], [10]⟩
    ⟨[⟨7/5, [⟨7/5, 1⟩]⟩], [10]⟩ [true]
    (by simp [startCalculation, assignSurfaceIndices])
    ⟨7/5, [⟨7/5, 1⟩]⟩ (by simp) ⟨7/5, 1⟩ (by simp)

theorem roulette_distances (t : Tape) (p : PhotonState) :
    ((roulette t p).2).distances = t.distances := by
  unfold roulette drawUniform
  dsimp only
  split_ifs <;> rfl

/-- Claim C1: in `Geometry.propagate`, a reflection at distance `d'`
decrements the remaining free-flight distance by `d'` (`d -= d'`), does
not end the loop, and consumes no scattering distance from the random
stream beyond the one the loop head may have drawn; the loop head draws a
fresh distance exactly when `d <= 0`, and a fresh launch starts with
`d = 0`. -/
theorem reflection_carries_remaining_distance (G : GeometryOps) (s : LoopSt)
    (it : Intersect)
    (hsome : G.nextExit s.p.r s.p.ez (headDraw s.tape s.d).1 = some it)
    (hrefl : (drawFresnel (headDraw s.tape s.d).2).1 = true) :
    (propagateIter G s).1.d = (headDraw s.tape s.d).1 - it.distance
    ∧ (propagateIter G s).2 = false
    ∧ ((propagateIter G s).1.tape).distances
        = ((headDraw s.tape s.d).2).distances
    ∧ (0 < s.d → headDraw s.tape s.d = (s.d, s.tape))
    ∧ (s.d ≤ 0 → (headDraw s.tape s.d).1 = s.tape.distances.headD 0
        ∧ ((headDraw s.tape s.d).2).distances = s.tape.distances.tail)
    ∧ (∀ o t p, (propagateInit o t p).d = 0) := by
  refine ⟨?_, ?_, ?_, ?_, ?_, fun o t p => rfl⟩
  · simp only [propagateIter, hsome, hrefl, if_true]
  · simp only [propagateIter, hsome, hrefl, if_true]
  · simp only [propagateIter, hsome, hrefl, if_true]
    rw [roulette_distances]
    rfl
  · intro hd
    unfold headDraw
    rw [if_neg (by linarith)]
  · intro hd
    unfold headDraw
    rw [if_pos hd]
    exact ⟨rfl, rfl⟩

/-- Witness geometry for the propagate-loop claims: a half-space-like
capability record whose exit interface sits one unit away whenever the
drawn distance reaches it. -/
def demoG6 : GeometryOps :=
  { contains := fun _ => true
    nextExit := fun _ _ d => if 1 ≤ d then some ⟨1, 0⟩ else none
    scatter := fun e _ _ => e
    reflectDir := fun e _ => vneg e
    refractDir := fun e _ => e
    albedo := 1 / 2 }

/-- Loop state with a low-weight photon about to reflect. -/
def demoS6 : LoopSt :=
  { p := { r := ⟨0, 0, 0⟩, ez := ⟨0, 0, 1⟩, weight := 1 / 1000000, alive := true }
    d := 5
    tape := { distances := [3], angles := [], fresnel := [true], uniforms := [1/2] }
    events := [] }

/-- Witness for C1 at the concrete reflecting state. -/
theorem reflection_carries_remaining_distance_w :
    (propagateIter demoG6 demoS6).1.d = (headDraw demoS6.tape demoS6.d).1 - (1 : ℚ)
    ∧ (propagateIter demoG6 demoS6).2 = false := by
  have h := reflection_carries_remaining_distance demoG6 demoS6 ⟨1, 0⟩
    (by norm_num [demoG6, demoS6, headDraw])
    (by norm_num [demoS6, headDraw, drawFresnel])
  exact ⟨h.1, h.2.1⟩

/-- Claim C2: in `Geometry.propagate`, when `nextExitInterface` reports no
interface within the current distance, the photon moves by that full
distance, loses `delta = weight * albedo` (equivalently
`weight *= (1 - albedo)`), that delta is scored as in-volume absorption,
the direction is re-sampled through the phase function with freshly drawn
angles, and `d` is reset so a fresh free-flight distance is drawn at the
next loop head. -/
theorem volume_interaction_updates (G : GeometryOps) (s : LoopSt)
    (hnone : G.nextExit s.p.r s.p.ez (headDraw s.tape s.d).1 = none) :
    (propagateIter G s).2 = false
    ∧ (propagateIter G s).1.p =
        (roulette ((drawAngles ((headDraw s.tape s.d).2)).2)
          { r := vadd s.p.r (smul (headDraw s.tape s.d).1 s.p.ez)
            ez := G.scatter s.p.ez ((drawAngles ((headDraw s.tape s.d).2)).1.1)
                    ((drawAngles ((headDraw s.tape s.d).2)).1.2)
            weight := s.p.weight - s.p.weight * G.albedo
            alive := s.p.alive }).1
    ∧ s.p.weight - s.p.weight * G.albedo = s.p.weight * (1 - G.albedo)
    ∧ (propagateIter G s).1.events
        = s.events ++ [ScoreEvent.inVolume
            (vadd s.p.r (smul (headDraw s.tape s.d).1 s.p.ez))
            (s.p.weight * G.albedo)]
    ∧ (propagateIter G s).1.d = 0
    ∧ (∀ t : Tape, (headDraw t 0).1 = t.distances.headD 0
        ∧ ((headDraw t 0).2).distances = t.distances.tail) := by
  refine ⟨?_, ?_, by ring, ?_, ?_, fun t => by simp [headDraw]⟩
  · simp only [propagateIter, hnone]
  · simp only [propagateIter, hnone, moveBy, decreaseWeightBy]
  · simp only [propagateIter, hnone, moveBy, decreaseWeightBy]
  · simp only [propagateIter, hnone]

/-- Non-reflecting state for the C2 witness: the drawn distance stays
below the demo interface, so no interface is met. -/
def demoS2 : LoopSt :=
  { p := { r := ⟨0, 0, 0⟩, ez := ⟨0, 0, 1⟩, weight := 1, alive := true }
    d := 1 / 2
    tape := { distances := [3], angles := [(2, 4)], fresnel := [], uniforms := [] }
    events := [] }

/-- Witness for C2 at the concrete non-intersecting state. -/
theorem volume_interaction_updates_w :
    (propagateIter demoG6 demoS2).2 = false
    ∧ (propagateIter demoG6 demoS2).1.d = 0 := by
  have h := volume_interaction_updates demoG6 demoS2
    (by norm_num [demoG6, demoS2, headDraw])
  exact ⟨h.1, h.2.2.2.2.1⟩

/-- Photon state right after the volume-interaction part of the
no-interface branch (move, absorb, scatter), before the `roulette()` call
at the bottom of the loop body. -/
def volumeInterim (G : GeometryOps) (s : LoopSt) : PhotonState :=
  let p1 := moveBy s.p (headDraw s.tape s.d).1
  let p2 := decreaseWeightBy p1 (p1.weight * G.albedo)
  let th := (drawAngles ((headDraw s.tape s.d).2)).1.1
  let ph := (drawAngles ((headDraw s.tape s.d).2)).1.2
  { p2 with ez := G.scatter p2.ez th ph }

/-- Photon state right after the reflect branch (move to surface, mirror,
nudge 1e-3), before the `roulette()` call at the bottom of the loop
body. -/
def reflectInterim (G : GeometryOps) (s : LoopSt) (it : Intersect) : PhotonState :=
  let p1 := moveBy s.p it.distance
  moveBy { p1 with ez := G.reflectDir p1.ez it } (1 / 1000)

/-- Photon state at the end of the transmit branch (move to surface,
refract, nudge 1e-3); the `break` skips the `roulette()` call. -/
def transmitInterim (G : GeometryOps) (s : LoopSt) (it : Intersect) : PhotonState :=
  let p1 := moveBy s.p it.distance
  moveBy { p1 with ez := G.refractDir p1.ez it } (1 / 1000)

/-- Claim C6 counterexample: the `photon.roulette()` call at the bottom of
the `Geometry.propagate` loop body also runs after a pure reflection —
here a below-threshold photon reflects (no volume interaction takes place
and nothing is scored), yet the roulette kills it, contradicting the claim
that roulette is invoked only after volume interactions. -/
theorem roulette_after_reflection_cex :
    demoG6.nextExit demoS6.p.r demoS6.p.ez (headDraw demoS6.tape demoS6.d).1
        = some ⟨1, 0⟩
    ∧ (drawFresnel (headDraw demoS6.tape demoS6.d).2).1 = true
    ∧ (propagateIter demoG6 demoS6).1.events = demoS6.events
    ∧ demoS6.p.weight = 1 / 1000000
    ∧ (propagateIter demoG6 demoS6).1.p.weight = 0
    ∧ (propagateIter demoG6 demoS6).1.p.alive = false := by
  refine ⟨by norm_num [demoG6, demoS6, headDraw],
          by norm_num [demoS6, headDraw, drawFresnel], ?_, rfl, ?_, ?_⟩ <;>
    norm_num [propagateIter, demoG6, demoS6, headDraw, drawFresnel, moveBy,
      roulette, drawUniform, rouletteThreshold, rouletteSurvival, vneg, vadd, smul]

/-- Claim C6 (amended): `Geometry.propagate` applies the roulette at the
end of every loop iteration that does not transmit — after every volume
interaction and also after every reflection, while the transmit branch
breaks out before it; and the modelled roulette rescales a below-threshold
survivor's weight by 1/p, kills it otherwise (weight 0, alive false), and
leaves photons at or above the threshold untouched. -/
theorem roulette_every_nontransmit_iteration (G : GeometryOps) (s : LoopSt) :
    (G.nextExit s.p.r s.p.ez (headDraw s.tape s.d).1 = none →
        (propagateIter G s).1.p
          = (roulette ((drawAngles ((headDraw s.tape s.d).2)).2) (volumeInterim G s)).1
      ∧ (propagateIter G s).1.tape
          = (roulette ((drawAngles ((headDraw s.tape s.d).2)).2) (volumeInterim G s)).2)
    ∧ (∀ it, G.nextExit s.p.r s.p.ez (headDraw s.tape s.d).1 = some it →
        (drawFresnel (headDraw s.tape s.d).2).1 = true →
          (propagateIter G s).1.p
            = (roulette ((drawFresnel ((headDraw s.tape s.d).2)).2) (reflectInterim G s it)).1
        ∧ (propagateIter G s).1.tape
            = (roulette ((drawFresnel ((headDraw s.tape s.d).2)).2) (reflectInterim G s it)).2)
    ∧ (∀ it, G.nextExit s.p.r s.p.ez (headDraw s.tape s.d).1 = some it →
        (drawFresnel (headDraw s.tape s.d).2).1 = false →
          (propagateIter G s).1.p = transmitInterim G s it
        ∧ ((propagateIter G s).1.tape).uniforms
            = ((headDraw s.tape s.d).2).uniforms)
    ∧ (∀ (t : Tape) (p : PhotonState), ¬ p.weight < rouletteThreshold →
        roulette t p = (p, t))
    ∧ (∀ (t : Tape) (p : PhotonState), p.weight < rouletteThreshold →
        ((drawUniform t).1 < rouletteSurvival →
          roulette t p
            = ({ p with weight := p.weight * (1 / rouletteSurvival) }, (drawUniform t).2))
      ∧ (¬ (drawUniform t).1 < rouletteSurvival →
          roulette t p = ({ p with weight := 0, alive := false }, (drawUniform t).2))) := by
  refine ⟨fun hnone => ?_, fun it hsome hrefl => ?_, fun it hsome htr => ?_,
    fun t p hw => ?_, fun t p hw => ⟨fun hu => ?_, fun hu => ?_⟩⟩
  · constructor <;>
      simp only [propagateIter, hnone, volumeInterim]
  · constructor <;>
      simp only [propagateIter, hsome, hrefl, if_true, reflectInterim]
  · constructor
    · simp only [propagateIter, hsome, htr, Bool.false_eq_true, if_false,
        transmitInterim]
    · simp only [propagateIter, hsome, htr, Bool.false_eq_true, if_false]
      rfl
  · unfold roulette
    rw [if_neg hw]
  · unfold roulette
    dsimp only
    rw [if_pos hw, if_pos hu]
  · unfold roulette
    dsimp only
    rw [if_pos hw, if_neg hu]

/-- Witness for C6's amended statement at the concrete reflecting state. -/
theorem roulette_every_nontransmit_iteration_w :
    (propagateIter demoG6 demoS6).1.p
      = (roulette ((drawFresnel ((headDraw demoS6.tape demoS6.d).2)).2)
          (reflectInterim demoG6 demoS6 ⟨1, 0⟩)).1 := by
  have h := roulette_every_nontransmit_iteration demoG6 demoS6
  exact (h.2.1 ⟨1, 0⟩ (by norm_num [demoG6, demoS6, headDraw])
    (by norm_num [demoS6, headDraw, drawFresnel])).1

/-- Slab-like capability record for comparing the two propagation paths:
contained below `z = 2`, with the closed-form exit interface of that
plane. -/
def demoG3 : GeometryOps :=
  { contains := fun v => decide (v.z ≤ 2)
    nextExit := fun pos dir dist =>
      if 0 < dir.z ∧ 2 < pos.z + dist * dir.z then some ⟨(2 - pos.z) / dir.z, 0⟩
      else none
    scatter := fun e _ _ => e
    reflectDir := fun e _ => ⟨e.x, e.y, -e.z⟩
    refractDir := fun e _ => e
    albedo := 1 / 2 }

/-- A low-weight photon heading for the `z = 2` interface. -/
def demoP3 : PhotonState :=
  { r := ⟨0, 0, 0⟩, ez := ⟨0, 0, 1⟩, weight := 1 / 1000000, alive := true }

/-- A tape on which both propagation paths draw the same values. -/
def demoT3 : Tape :=
  { distances := [10, 10, 10]
    angles := [(0, 0), (0, 0)]
    fresnel := [true, true]
    uniforms := [1/2, 1/2] }

/-- Claim C3: with identical random draws, the per-photon
`Geometry.propagate` and the vectorized `Geometry.propagateMany` disagree
on the very same photon: after the reflection the per-photon path nudges
the photon 1e-3 off the surface (final position z = 1999/1000), while the
vectorized path leaves it on the surface (z = 2), discards the remaining
free-flight distance, and returns no exited photon.  This evaluates the
unfinished vectorized reflection path (the `#`-commented
`moveBy(remainingDistances)` FIXME of geometry.py line 112). -/
theorem vectorized_propagation_diverges :
    (propagate demoG3 ⟨0, 0, 0⟩ 5 demoT3 demoP3).p.r = ⟨0, 0, 1999/1000⟩
    ∧ (propagate demoG3 ⟨0, 0, 0⟩ 5 demoT3 demoP3).p.alive = false
    ∧ (propagateMany demoG3 ⟨0, 0, 0⟩ 5 demoT3 [demoP3]).exited = []
    ∧ (propagateMany demoG3 ⟨0, 0, 0⟩ 5 demoT3 [demoP3]).dead
        = [⟨⟨0, 0, 2⟩, ⟨0, 0, -1⟩, 0, false⟩]
    ∧ (⟨0, 0, 1999/1000⟩ : Vec3) ≠ ⟨0, 0, 2⟩ := by
  refine ⟨?_, ?_, ?_, ?_, by norm_num [Vec3.mk.injEq]⟩ <;>
    norm_num [propagate, propagateLoop, propagateInit, propagateIter,
      propagateMany, manyLoop, takeDistances, splitByIntersect, volumeMany,
      impededMany, rouletteMany, headDraw, drawFresnel, drawAngles, roulette,
      drawUniform, rouletteThreshold, rouletteSurvival, moveBy,
      decreaseWeightBy, isAlive, vadd, vsub, smul, vneg, demoG3, demoP3,
      demoT3]

/-- Loop invariant of the damped bisection: the recorded classification is
the one of the current point, and the point two steps back along the
current `delta` has the opposite classification (a bracket of width
`2 * |delta|`). -/
def BisectInv (c : Vec3 → Bool) (dir : Vec3) (s : BisectState) : Prop :=
  s.wasInside = c s.pos ∧ c (vadd s.pos (smul (2 * s.delta) dir)) ≠ c s.pos

theorem bisectStep_eq_of_flip (c : Vec3 → Bool) (dir : Vec3) (s : BisectState)
    (hwas : s.wasInside = c s.pos)
    (hc : c (vadd s.pos (smul s.delta dir)) ≠ c s.pos) :
    bisectStep c dir s = ⟨vadd s.pos (smul s.delta dir), s.t + s.delta,
      -s.delta * (1 / 2), c (vadd s.pos (smul s.delta dir))⟩ := by
  unfold bisectStep
  rw [hwas, if_neg hc]

theorem bisectStep_eq_of_same (c : Vec3 → Bool) (dir : Vec3) (s : BisectState)
    (hwas : s.wasInside = c s.pos)
    (hc : c (vadd s.pos (smul s.delta dir)) = c s.pos) :
    bisectStep c dir s = ⟨vadd s.pos (smul s.delta dir), s.t + s.delta,
      s.delta, c (vadd s.pos (smul s.delta dir))⟩ := by
  unfold bisectStep
  rw [hwas, if_pos hc]

/-- From any invariant state, within one or two iterations the
classification changes again, so `delta` is halved (and flipped). -/
theorem bisect_inv_step (c : Vec3 → Bool) (dir : Vec3) (s : BisectState)
    (h : BisectInv c dir s) :
    (BisectInv c dir (bisectStep c dir s)
      ∧ (bisectStep c dir s).delta = -s.delta * (1 / 2))
    ∨ ((bisectStep c dir s).delta = s.delta
      ∧ BisectInv c dir (bisectStep c dir (bisectStep c dir s))
      ∧ (bisectStep c dir (bisectStep c dir s)).delta = -s.delta * (1 / 2)) := by
  obtain ⟨hwas, hbr⟩ := h
  by_cases hc : c (vadd s.pos (smul s.delta dir)) = c s.pos
  · right
    rw [bisectStep_eq_of_same c dir s hwas hc]
    have hc2 : c (vadd (vadd s.pos (smul s.delta dir)) (smul s.delta dir))
        ≠ c (vadd s.pos (smul s.delta dir)) := by
      rw [vadd_smul_collinear, hc]
      have harith : s.delta + s.delta = 2 * s.delta := by ring
      rw [harith]
      exact hbr
    rw [bisectStep_eq_of_flip c dir ⟨vadd s.pos (smul s.delta dir), s.t + s.delta,
      s.delta, c (vadd s.pos (smul s.delta dir))⟩ rfl hc2]
    refine ⟨rfl, ⟨rfl, ?_⟩, rfl⟩
    have harith2 : (2 : ℚ) * (-s.delta * (1 / 2)) = -s.delta := by ring
    rw [harith2, vadd_smul_collinear]
    have harith3 : s.delta + -s.delta = 0 := by ring
    rw [harith3, vadd_smul_zero]
    exact fun heq => hc2 heq.symm
  · left
    rw [bisectStep_eq_of_flip c dir s hwas hc]
    refine ⟨⟨rfl, ?_⟩, rfl⟩
    have harith2 : (2 : ℚ) * (-s.delta * (1 / 2)) = -s.delta := by ring
    rw [harith2, vadd_smul_collinear]
    have harith3 : s.delta + -s.delta = 0 := by ring
    rw [harith3, vadd_smul_zero]
    exact fun heq => hc heq.symm

/-- Iterating the previous lemma: after at most `2 * m` iterations the
step has been halved `m` times. -/
theorem bisect_inv_reach (c : Vec3 → Bool) (dir : Vec3) (s : BisectState)
    (h : BisectInv c dir s) :
    ∀ m : Nat, ∃ k, k ≤ 2 * m ∧ BisectInv c dir ((bisectStep c dir)^[k] s)
      ∧ |((bisectStep c dir)^[k] s).delta| = |s.delta| / 2 ^ m := by
  intro m
  induction m with
  | zero => exact ⟨0, by omega, by simpa using h, by simp⟩
  | succ m ih =>
    obtain ⟨k, hk, hInv, habs⟩ := ih
    have habs2 : ∀ x : ℚ, x = -((bisectStep c dir)^[k] s).delta * (1 / 2) →
        |x| = |s.delta| / 2 ^ (m + 1) := by
      intro x hx
      rw [hx, abs_mul, abs_neg, habs]
      rw [abs_of_pos (by norm_num : (0:ℚ) < 1 / 2)]
      rw [pow_succ]
      field_simp
    rcases bisect_inv_step c dir ((bisectStep c dir)^[k] s) hInv with
      ⟨hInv1, hd1⟩ | ⟨_, hInv2, hd2⟩
    · refine ⟨k + 1, by omega, ?_, ?_⟩
      · rw [Function.iterate_succ_apply']
        exact hInv1
      · rw [Function.iterate_succ_apply']
        exact habs2 _ hd1
    · refine ⟨k + 2, by omega, ?_, ?_⟩
      · rw [Function.iterate_succ_apply', Function.iterate_succ_apply']
        exact hInv2
      · rw [Function.iterate_succ_apply', Function.iterate_succ_apply']
        exact habs2 _ hd2

/-- If some iterate of the bisection body reaches the tolerance within the
fuel, the loop returns `some`. -/
theorem bisectRun_some_of_tol (c : Vec3 → Bool) (dir : Vec3) :
    ∀ (j n : Nat) (s : BisectState), j ≤ n →
      |((bisectStep c dir)^[j] s).delta| ≤ bisectTol →
      (bisectRun c dir n s).isSome = true := by
  intro j
  induction j with
  | zero =>
    intro n s _ h0
    rw [Function.iterate_zero_apply] at h0
    cases n with
    | zero => simp [bisectRun, h0]
    | succ n => simp [bisectRun, h0]
  | succ j ih =>
    intro n s hjn h0
    cases n with
    | zero => exact absurd hjn (by omega)
    | succ n =>
      by_cases hs : |s.delta| ≤ bisectTol
      · simp [bisectRun, hs]
      · rw [show bisectRun c dir (n + 1) s
            = if |s.delta| ≤ bisectTol then some s
              else bisectRun c dir n (bisectStep c dir s) from rfl]
        rw [if_neg hs]
        apply ih n (bisectStep c dir s) (by omega)
        rw [← Function.iterate_succ_apply]
        exact h0

theorem exists_pow_div_le (a tol : ℚ) (ha : 0 ≤ a) (htol : 0 < tol) :
    ∃ m : Nat, a / 2 ^ m ≤ tol := by
  obtain ⟨m, hm⟩ := pow_unbounded_of_one_lt (a / tol) (by norm_num : (1:ℚ) < 2)
  refine ⟨m, ?_⟩
  have h2 : (0:ℚ) < 2 ^ m := by positivity
  rw [div_le_iff h2]
  have := (div_lt_iff htol).1 hm
  linarith

/-- Claim C4: the damped-bisection loop of the generic
`Geometry.nextExitInterface` terminates whenever the start point is
contained and the segment endpoint is not: the step `delta`, halved and
flipped on every classification change, falls below the 1e-5 tolerance
after finitely many iterations, for any containment predicate and any
direction. -/
theorem bisection_loop_terminates (c : Vec3 → Bool) (pos dir : Vec3) (dist : ℚ)
    (hin : c pos = true) (hout : c (vadd pos (smul dist dir)) = false)
    (hd : 0 < dist) :
    ∃ fuel, (bisectRun c dir fuel ⟨pos, 0, dist * (1 / 2), true⟩).isSome = true := by
  have hInv : BisectInv c dir ⟨pos, 0, dist * (1 / 2), true⟩ := by
    constructor
    · exact hin.symm
    · show c (vadd pos (smul (2 * (dist * (1 / 2))) dir)) ≠ c pos
      have harith : (2 : ℚ) * (dist * (1 / 2)) = dist := by ring
      rw [harith, hout, hin]
      simp
  obtain ⟨m, hm⟩ := exists_pow_div_le |(dist * (1 / 2) : ℚ)| bisectTol
    (abs_nonneg _) (by norm_num [bisectTol])
  obtain ⟨k, hk, _, habs⟩ := bisect_inv_reach c dir ⟨pos, 0, dist * (1 / 2), true⟩ hInv m
  exact ⟨2 * m, bisectRun_some_of_tol c dir k (2 * m) _ hk (by rw [habs]; exact hm)⟩

/-- Box-like containment for the C4 witness. -/
def demoC4 : Vec3 → Bool := fun v => decide (v.z ≤ 1)

/-- Witness for C4: the bisection terminates on the concrete half-space
march from the origin past `z = 1`. -/
theorem bisection_loop_terminates_w :
    ∃ fuel, (bisectRun demoC4 ⟨0, 0, 1⟩ fuel
      ⟨⟨0, 0, 0⟩, 0, 4 * (1 / 2), true⟩).isSome = true :=
  bisection_loop_terminates demoC4 ⟨0, 0, 0⟩ ⟨0, 0, 1⟩ 4
    (by norm_num [demoC4]) (by norm_num [demoC4, vadd, smul]) (by norm_num)

theorem layer_exit_center_pos (th ni no D : ℚ) (dir : Vec3)
    (hth : 0 < th) (hpos : 0 < dir.z) (hDz : th * (1/2) < D * dir.z) :
    layerNextExit th (layerFront ni no) (layerBack th ni no) (layerCenter th) dir D
      = some ⟨layerBack th ni no, (th - th * (1/2)) / dir.z, ni, no⟩ := by
  have hfinal : layerContains th (vadd (layerCenter th) (smul D dir)) = false := by
    unfold layerContains layerCenter vadd smul
    dsimp only
    rw [if_neg (by linarith), if_pos (by linarith)]
  unfold layerNextExit
  rw [hfinal]
  simp only [Bool.false_eq_true, if_false]
  rw [if_pos hpos]
  have hle : (th - (layerCenter th).z) / dir.z ≤ D := by
    rw [div_le_iff₀ hpos]
    unfold layerCenter
    dsimp only
    linarith
  rw [if_pos hle]
  unfold mkFresnel
  rw [if_pos (by unfold dot planeNormal layerBack; dsimp only; linarith)]
  rfl

theorem layer_exit_center_neg (th ni no D : ℚ) (dir : Vec3)
    (hth : 0 < th) (hneg : dir.z < 0) (hDz : th * (1/2) + D * dir.z < 0) :
    layerNextExit th (layerFront ni no) (layerBack th ni no) (layerCenter th) dir D
      = some ⟨layerFront ni no, -(th * (1/2)) / dir.z, ni, no⟩ := by
  have hfinal : layerContains th (vadd (layerCenter th) (smul D dir)) = false := by
    unfold layerContains layerCenter vadd smul
    dsimp only
    rw [if_pos (by linarith)]
  unfold layerNextExit
  rw [hfinal]
  simp only [Bool.false_eq_true, if_false]
  rw [if_neg (by linarith), if_pos hneg]
  have hle : -(layerCenter th).z / dir.z ≤ D := by
    rw [div_le_iff_of_neg hneg]
    unfold layerCenter
    dsimp only
    linarith
  rw [if_pos hle]
  unfold mkFresnel
  rw [if_pos (by unfold dot planeNormal layerFront; dsimp only; linarith)]
  rfl

theorem layer_exit_reverse_none (th ni no D : ℚ) (dir : Vec3)
    (hth : 0 < th) :
    layerNextExit th (layerFront ni no) (layerBack th ni no)
      (vadd (layerCenter th) (smul D dir)) (vneg dir) D = none := by
  have hfinal : layerContains th
      (vadd (vadd (layerCenter th) (smul D dir)) (smul D (vneg dir))) = true := by
    unfold layerContains layerCenter vadd smul vneg
    dsimp only
    rw [if_neg (by linarith), if_neg (by linarith)]
  unfold layerNextExit
  rw [hfinal]
  simp only [if_true]

theorem dot_vneg_front (dir : Vec3) (ni no : ℚ) :
    dot (vneg dir) (planeNormal (layerFront ni no)) = dir.z := by
  dsimp only [dot, planeNormal, layerFront, vneg]
  ring

theorem dot_vneg_back (dir : Vec3) (th ni no : ℚ) :
    dot (vneg dir) (planeNormal (layerBack th ni no)) = -dir.z := by
  dsimp only [dot, planeNormal, layerBack, vneg]
  ring

theorem dot_front_eval (dir : Vec3) (ni no : ℚ) :
    dot dir (planeNormal (layerFront ni no)) = -dir.z := by
  dsimp only [dot, planeNormal, layerFront]
  ring

theorem dot_back_eval (dir : Vec3) (th ni no : ℚ) :
    dot dir (planeNormal (layerBack th ni no)) = dir.z := by
  dsimp only [dot, planeNormal, layerBack]
  ring

theorem entrance_center_none_pos (th ni no D : ℚ) (dir : Vec3)
    (hth : 0 < th) (hpos : 0 < dir.z) :
    nextEntrance [layerFront ni no, layerBack th ni no] (layerCenter th) dir D
      = none := by
  have hmissF : planeIntersection (layerFront ni no) (layerCenter th) dir D
      = (false, ((layerFront ni no).atZ - (layerCenter th).z) / dir.z) := by
    apply planeIntersection_miss _ _ _ _ (by intro h0; linarith)
    dsimp only [layerFront, layerCenter]
    intro hand
    have hneg : (0 - th * (1/2)) / dir.z < 0 :=
      div_neg_of_neg_of_pos (by linarith) hpos
    have h1 := hand.1
    linarith
  have hF : entranceStep (layerCenter th) dir D (D, none) (layerFront ni no)
      = (D, none) := by
    apply entranceStep_miss
    · rw [dot_front_eval]
      intro h0
      linarith
    · rw [hmissF]
      intro hand
      exact Bool.false_ne_true hand.1
  have hB : entranceStep (layerCenter th) dir D (D, none) (layerBack th ni no)
      = (D, none) := by
    apply entranceStep_skip
    rw [dot_back_eval]
    linarith
  unfold nextEntrance
  simp only [List.foldl]
  rw [hF, hB]

theorem entrance_center_none_neg (th ni no D : ℚ) (dir : Vec3)
    (hth : 0 < th) (hneg : dir.z < 0) :
    nextEntrance [layerFront ni no, layerBack th ni no] (layerCenter th) dir D
      = none := by
  have hmissB : planeIntersection (layerBack th ni no) (layerCenter th) dir D
      = (false, ((layerBack th ni no).atZ - (layerCenter th).z) / dir.z) := by
    apply planeIntersection_miss _ _ _ _ (by intro h0; linarith)
    dsimp only [layerBack, layerCenter]
    intro hand
    have hn : (th - th * (1/2)) / dir.z < 0 :=
      div_neg_of_pos_of_neg (by linarith) hneg
    have h1 := hand.1
    linarith
  have hF : entranceStep (layerCenter th) dir D (D, none) (layerFront ni no)
      = (D, none) := by
    apply entranceStep_skip
    rw [dot_front_eval]
    linarith
  have hB : entranceStep (layerCenter th) dir D (D, none) (layerBack th ni no)
      = (D, none) := by
    apply entranceStep_miss
    · rw [dot_back_eval]
      intro h0
      linarith
    · rw [hmissB]
      intro hand
      exact Bool.false_ne_true hand.1
  unfold nextEntrance
  simp only [List.foldl]
  rw [hF, hB]

theorem entrance_reverse_pos (th ni no D : ℚ) (dir : Vec3)
    (hth : 0 < th) (hpos : 0 < dir.z) (hDz : th * (1/2) < D * dir.z) :
    nextEntrance [layerFront ni no, layerBack th ni no]
      (vadd (layerCenter th) (smul D dir)) (vneg dir) D
      = some ⟨layerBack th ni no,
          (th - (th * (1/2) + D * dir.z)) / -dir.z, no, ni⟩ := by
  have hz2 : (vneg dir).z ≠ 0 := by
    show -dir.z ≠ 0
    intro h0
    linarith
  have hT : planeIntersection (layerBack th ni no)
      (vadd (layerCenter th) (smul D dir)) (vneg dir) D
      = (true, (th - (th * (1/2) + D * dir.z)) / -dir.z) := by
    unfold planeIntersection
    rw [if_neg hz2]
    dsimp only [layerBack, layerCenter, vadd, smul, vneg]
    rw [if_pos ?cond]
    case cond =>
      constructor
      · rw [div_pos_iff]
        right
        constructor <;> linarith
      · rw [div_le_iff_of_neg (by linarith : -dir.z < (0:ℚ))]
        linarith
  have hlt : (th - (th * (1/2) + D * dir.z)) / -dir.z < D := by
    rw [div_lt_iff_of_neg (by linarith : -dir.z < (0:ℚ))]
    linarith
  have hF : entranceStep (vadd (layerCenter th) (smul D dir)) (vneg dir) D
      (D, none) (layerFront ni no) = (D, none) := by
    apply entranceStep_skip
    rw [dot_vneg_front]
    linarith
  have hB : entranceStep (vadd (layerCenter th) (smul D dir)) (vneg dir) D
      (D, none) (layerBack th ni no)
      = ((th - (th * (1/2) + D * dir.z)) / -dir.z, some (layerBack th ni no)) := by
    have h := entranceStep_hit (vadd (layerCenter th) (smul D dir)) (vneg dir) D
      (D, none) (layerBack th ni no)
      (by rw [dot_vneg_back]; intro h0; linarith)
      (by rw [hT]; exact ⟨rfl, hlt⟩)
    rw [hT] at h
    exact h
  unfold nextEntrance
  simp only [List.foldl]
  rw [hF, hB]
  unfold mkFresnel
  dsimp only
  rw [if_neg (by rw [dot_vneg_back]; intro h0; linarith)]
  dsimp only [layerBack]

theorem entrance_reverse_neg (th ni no D : ℚ) (dir : Vec3)
    (hth : 0 < th) (hneg : dir.z < 0) (hDz : th * (1/2) + D * dir.z < 0) :
    nextEntrance [layerFront ni no, layerBack th ni no]
      (vadd (layerCenter th) (smul D dir)) (vneg dir) D
      = some ⟨layerFront ni no,
          (0 - (th * (1/2) + D * dir.z)) / -dir.z, no, ni⟩ := by
  have hz2 : (vneg dir).z ≠ 0 := by
    show -dir.z ≠ 0
    intro h0
    linarith
  have hT : planeIntersection (layerFront ni no)
      (vadd (layerCenter th) (smul D dir)) (vneg dir) D
      = (true, (0 - (th * (1/2) + D * dir.z)) / -dir.z) := by
    unfold planeIntersection
    rw [if_neg hz2]
    dsimp only [layerFront, layerCenter, vadd, smul, vneg]
    rw [if_pos ?cond]
    case cond =>
      constructor
      · apply div_pos (by linarith) (by linarith)
      · rw [div_le_iff₀ (by linarith : (0:ℚ) < -dir.z)]
        linarith
  have hlt : (0 - (th * (1/2) + D * dir.z)) / -dir.z < D := by
    rw [div_lt_iff₀ (by linarith : (0:ℚ) < -dir.z)]
    linarith
  have hF : entranceStep (vadd (layerCenter th) (smul D dir)) (vneg dir) D
      (D, none) (layerFront ni no)
      = ((0 - (th * (1/2) + D * dir.z)) / -dir.z, some (layerFront ni no)) := by
    have h := entranceStep_hit (vadd (layerCenter th) (smul D dir)) (vneg dir) D
      (D, none) (layerFront ni no)
      (by rw [dot_vneg_front]; intro h0; linarith)
      (by rw [hT]; exact ⟨rfl, hlt⟩)
    rw [hT] at h
    exact h
  have hB : entranceStep (vadd (layerCenter th) (smul D dir)) (vneg dir) D
      ((0 - (th * (1/2) + D * dir.z)) / -dir.z, some (layerFront ni no))
      (layerBack th ni no)
      = ((0 - (th * (1/2) + D * dir.z)) / -dir.z, some (layerFront ni no)) := by
    apply entranceStep_skip
    rw [dot_vneg_back]
    linarith
  unfold nextEntrance
  simp only [List.foldl]
  rw [hF, hB]
  unfold mkFresnel
  dsimp only
  rw [if_neg (by rw [dot_vneg_front]; intro h0; linarith)]
  dsimp only [layerFront]

/-- Claim C5 counterexample: for the unit direction `(1, 0, 0)`, parallel
to the faces of a `Layer` of thickness 1, `Layer.nextExitInterface` from
the interior center returns `None` instead of an exit intersection, so the
claim does not hold for every unit direction. -/
theorem layer_probe_parallel_direction_cex :
    layerNextExit 1 (layerFront (7/5) 1) (layerBack 1 (7/5) 1)
      (layerCenter 1) ⟨1, 0, 0⟩ 1000000 = none
    ∧ dot ⟨1, 0, 0⟩ ⟨1, 0, 0⟩ = 1 := by
  constructor
  · norm_num [layerNextExit, layerContains, layerCenter, vadd, smul]
  · norm_num [dot]

/-- Claim C5 (amended): for a `Layer` with interior center C and any
direction whose z-component is nonzero and whose exit point lies strictly
within the probe distance, the outgoing ray yields no entrance interface
and an exit intersection whose surface contains the hit point, with
`indexIn` the surface's `indexInside`; the reverse ray from the far point
yields no exit interface and an entrance intersection with `indexIn` the
surface's `indexOutside` and `indexOut` the surface's `indexInside`. -/
theorem layer_probe_rays_amended (th ni no D : ℚ) (dir : Vec3)
    (hth : 0 < th) (hz : dir.z ≠ 0) (hD : th / (2 * |dir.z|) < D) :
    nextEntrance [layerFront ni no, layerBack th ni no] (layerCenter th) dir D
        = none
    ∧ (∃ i, layerNextExit th (layerFront ni no) (layerBack th ni no)
          (layerCenter th) dir D = some i
        ∧ planeContainsPt i.surf (vadd (layerCenter th) (smul i.distance dir))
            = true
        ∧ i.indexIn = i.surf.indexInside
        ∧ i.indexOut = i.surf.indexOutside)
    ∧ layerNextExit th (layerFront ni no) (layerBack th ni no)
        (vadd (layerCenter th) (smul D dir)) (vneg dir) D = none
    ∧ (∃ j, nextEntrance [layerFront ni no, layerBack th ni no]
          (vadd (layerCenter th) (smul D dir)) (vneg dir) D = some j
        ∧ j.indexIn = j.surf.indexOutside
        ∧ j.indexOut = j.surf.indexInside) := by
  rcases hz.lt_or_lt with hneg | hpos
  · have habs : |dir.z| = -dir.z := abs_of_neg hneg
    rw [habs] at hD
    have hq : th < D * (2 * -dir.z) := by
      rw [div_lt_iff₀ (by linarith : (0:ℚ) < 2 * -dir.z)] at hD
      linarith
    have hDz : th * (1/2) + D * dir.z < 0 := by linarith
    refine ⟨entrance_center_none_neg th ni no D dir hth hneg, ?_,
      layer_exit_reverse_none th ni no D dir hth, ?_⟩
    · refine ⟨_, layer_exit_center_neg th ni no D dir hth hneg hDz, ?_, rfl, rfl⟩
      dsimp only [planeContainsPt, layerFront, layerCenter, vadd, smul]
      rw [decide_eq_true_eq]
      field_simp
      ring
    · exact ⟨_, entrance_reverse_neg th ni no D dir hth hneg hDz, rfl, rfl⟩
  · have habs : |dir.z| = dir.z := abs_of_pos hpos
    rw [habs] at hD
    have hq : th < D * (2 * dir.z) := by
      rw [div_lt_iff₀ (by linarith : (0:ℚ) < 2 * dir.z)] at hD
      linarith
    have hDz : th * (1/2) < D * dir.z := by linarith
    refine ⟨entrance_center_none_pos th ni no D dir hth hpos, ?_,
      layer_exit_reverse_none th ni no D dir hth, ?_⟩
    · refine ⟨_, layer_exit_center_pos th ni no D dir hth hpos hDz, ?_, rfl, rfl⟩
      dsimp only [planeContainsPt, layerBack, layerCenter, vadd, smul]
      rw [decide_eq_true_eq]
      field_simp
      ring
    · exact ⟨_, entrance_reverse_pos th ni no D dir hth hpos hDz, rfl, rfl⟩

/-- Witness for C5's amended statement: a thickness-1 layer probed along
the z axis. -/
theorem layer_probe_rays_amended_w :
    nextEntrance [layerFront (7/5) 1, layerBack 1 (7/5) 1] (layerCenter 1)
        ⟨0, 0, 1⟩ 1000000 = none
    ∧ (∃ i, layerNextExit 1 (layerFront (7/5) 1) (layerBack 1 (7/5) 1)
          (layerCenter 1) ⟨0, 0, 1⟩ 1000000 = some i
        ∧ planeContainsPt i.surf
            (vadd (layerCenter 1) (smul i.distance ⟨0, 0, 1⟩)) = true
        ∧ i.indexIn = i.surf.indexInside
        ∧ i.indexOut = i.surf.indexOutside)
    ∧ layerNextExit 1 (layerFront (7/5) 1) (layerBack 1 (7/5) 1)
        (vadd (layerCenter 1) (smul 1000000 ⟨0, 0, 1⟩)) (vneg ⟨0, 0, 1⟩)
        1000000 = none
    ∧ (∃ j, nextEntrance [layerFront (7/5) 1, layerBack 1 (7/5) 1]
          (vadd (layerCenter 1) (smul 1000000 ⟨0, 0, 1⟩)) (vneg ⟨0, 0, 1⟩)
          1000000 = some j
        ∧ j.indexIn = j.surf.indexOutside
        ∧ j.indexOut = j.surf.indexInside) :=
  layer_probe_rays_amended 1 (7/5) 1 1000000 ⟨0, 0, 1⟩ (by norm_num)
    (by norm_num) (by norm_num)

end PTO
